import Mathlib

/-!
Verification of the Enterprise-Data-Pipeline core (validator, exception
handler, transformer, aggregation, orchestrator) as a shallow embedding.
Python pandas rows become a record type with Option fields for possibly
missing (NaN) values; the per-record checks, the duplicate pass, the
error categorizer and the two summary generators are translated
function-for-function from src/src/validator.py, exception_handler.py,
transformer.py and pipeline.py.
-/

/-- A raw sales row.  Fields that can be NaN in the pandas frame are
Option; the product column is always populated by the generator and never
inspected for nullness by the core, so it is a plain string.  Revenue is
an integer count of currency units standing for the float column: every
claim about revenue involves only sums, sign tests and zero tests, which
are insensitive to the numeric domain. -/
structure SalesRecord where
  order_id : Option String
  order_date : Option String
  region : Option String
  product : String
  quantity : Option Int
  revenue : Option Int
deriving DecidableEq, Repr

/-- One row of validator.validation_results. -/
structure LogEntry where
  record_id : Nat
  stage : String
  control_type : String
  status : String
  reason : Option String
deriving DecidableEq, Repr

/-- pd.isna(x) or x == two quote marks, the null-or-empty test used for
order_id and region. -/
def isMissingStr : Option String → Bool
  | none => true
  | some s => s == ""

/-- The fixed five-region reference set of validator.validate_records. -/
def validRegions : List String := ["North", "South", "East", "West", "Central"]

/-- Shape check for a calendar date string YYYY-MM-DD. -/
def validDateShape : List Char → Bool
  | [y1, y2, y3, y4, h1, m1, m2, h2, d1, d2] =>
    y1.isDigit && y2.isDigit && y3.isDigit && y4.isDigit &&
    h1 == Char.ofNat 45 && h2 == Char.ofNat 45 &&
    m1.isDigit && m2.isDigit && d1.isDigit && d2.isDigit &&
    (let mo := (m1.toNat - 48) * 10 + (m2.toNat - 48)
     let da := (d1.toNat - 48) * 10 + (d2.toNat - 48)
     decide (1 ≤ mo ∧ mo ≤ 12 ∧ 1 ≤ da ∧ da ≤ 31))
  | _ => false

/-- Models pd.to_datetime on the date strings the pipeline handles:
ISO-formatted dates parse (to themselves, already canonical), everything
else raises.  The rules and groupings consume only parse success and the
canonical date value, so this restriction is faithful for the core. -/
def parseDate (s : String) : Option String :=
  if validDateShape s.toList then some s else none

/-- The boolean outcome of DataValidator._validate_date: present, not the
literal sentinel, and parseable. -/
def dateOk : Option String → Bool
  | none => false
  | some s => if s == "invalid_date" then false else (parseDate s).isSome

def failEntry (idx : Nat) (stage ctype reason : String) : LogEntry :=
  { record_id := idx, stage := stage, control_type := ctype,
    status := "FAILED", reason := some reason }

def passEntry (idx : Nat) (stage ctype : String) : LogEntry :=
  { record_id := idx, stage := stage, control_type := ctype,
    status := "PASSED", reason := none }

/-- The log entries DataValidator._validate_date appends, one per failing
date, split out from the boolean so each is a pure function. -/
def dateEntries (idx : Nat) : Option String → List LogEntry
  | none => [failEntry idx "DATE_VALIDATION" "MISSING_DATE" "Order date is missing"]
  | some s =>
    if s == "invalid_date" then
      [failEntry idx "DATE_VALIDATION" "INVALID_FORMAT" ("Invalid date format: " ++ s)]
    else
      match parseDate s with
      | some _ => []
      | none => [failEntry idx "DATE_VALIDATION" "PARSE_ERROR" ("Cannot parse date: " ++ s)]

/-- pd.notna(revenue) and revenue < 0. -/
def negRevenue (r : SalesRecord) : Bool :=
  match r.revenue with
  | some v => decide (v < 0)
  | none => false

/-- pd.notna(quantity) and quantity <= 0. -/
def badQuantity (r : SalesRecord) : Bool :=
  match r.quantity with
  | some q => decide (q ≤ 0)
  | none => false

/-- pd.notna(region) and region not in the fixed five-region set. -/
def badRegion (r : SalesRecord) : Bool :=
  match r.region with
  | some s => decide (s ∉ validRegions)
  | none => false

/-- A single boolean-guarded log entry: emitted exactly when the check
fails, as each if-branch of validate_records does. -/
def boolEntries (b : Bool) (e : LogEntry) : List LogEntry :=
  if b then [e] else []

/-- All FAILED entries one record produces in
DataValidator.validate_records, in source order: null checks, date
validation, business rules, region membership.  Each check runs
unconditionally (no elif), so the list is the complete violation set. -/
def failEntriesOf (idx : Nat) (r : SalesRecord) : List LogEntry :=
  boolEntries (isMissingStr r.order_id)
      (failEntry idx "NULL_CHECK" "MISSING_ORDER_ID" "Order ID is null or empty")
    ++ boolEntries (isMissingStr r.region)
      (failEntry idx "NULL_CHECK" "MISSING_REGION" "Region is null or empty")
    ++ dateEntries idx r.order_date
    ++ boolEntries (negRevenue r)
      (failEntry idx "BUSINESS_RULE" "NEGATIVE_REVENUE" "Revenue is negative")
    ++ boolEntries (badQuantity r)
      (failEntry idx "BUSINESS_RULE" "INVALID_QUANTITY" "Quantity is zero or negative")
    ++ boolEntries (badRegion r)
      (failEntry idx "BUSINESS_RULE" "INVALID_REGION" "Invalid region")

/-- One iteration of the validate_records loop: record_valid stays true
exactly when no check logged a failure; a valid record gets the single
PASSED entry instead. -/
def validateRecord (idx : Nat) (r : SalesRecord) : Bool × List LogEntry :=
  let es := failEntriesOf idx r
  if es.isEmpty then (true, [passEntry idx "RECORD_VALIDATION" "PASSED"])
  else (false, es)

/-- The full loop of DataValidator.validate_records over the frame rows,
carrying the running index: returns (valid rows, invalid rows, log). -/
def validateRecordsAux (i : Nat) :
    List SalesRecord → List (Nat × SalesRecord) × List (Nat × SalesRecord) × List LogEntry
  | [] => ([], [], [])
  | r :: rest =>
    let p := validateRecord i r
    let rec3 := validateRecordsAux (i + 1) rest
    if p.1 then ((i, r) :: rec3.1, rec3.2.1, p.2 ++ rec3.2.2)
    else (rec3.1, (i, r) :: rec3.2.1, p.2 ++ rec3.2.2)

def validateRecords (rows : List SalesRecord) :
    List (Nat × SalesRecord) × List (Nat × SalesRecord) × List LogEntry :=
  validateRecordsAux 0 rows

def validOf (rows : List SalesRecord) : List (Nat × SalesRecord) :=
  (validateRecords rows).1

def invalidOf (rows : List SalesRecord) : List (Nat × SalesRecord) :=
  (validateRecords rows).2.1

def valLogsOf (rows : List SalesRecord) : List LogEntry :=
  (validateRecords rows).2.2

/-- Number of rows of the frame whose order_id equals the key: the
multiplicity pandas duplicated(subset, keep=False) tests against. -/
def countKey (key : Option String) (rows : List (Nat × SalesRecord)) : Nat :=
  (rows.filter (fun p => p.2.order_id = key)).length

/-- df.drop_duplicates(subset, keep=first) together with the complement:
walks the frame once, keeping a row when its order_id was not seen yet
and dropping it otherwise.  The first component is the frame
check_duplicates returns; the second is the rows it silently discards. -/
def splitDupsAux (seen : List (Option String)) :
    List (Nat × SalesRecord) → List (Nat × SalesRecord) × List (Nat × SalesRecord)
  | [] => ([], [])
  | p :: rest =>
    if p.2.order_id ∈ seen then
      let q := splitDupsAux seen rest
      (q.1, p :: q.2)
    else
      let q := splitDupsAux (p.2.order_id :: seen) rest
      (p :: q.1, q.2)

/-- The log entries of DataValidator.check_duplicates: one
DUPLICATE_ORDER_ID failure per row whose order_id occurs more than once,
first occurrences included. -/
def dupLogEntries (rows : List (Nat × SalesRecord)) : List LogEntry :=
  (rows.filter (fun p => decide (2 ≤ countKey p.2.order_id rows))).map
    (fun p => failEntry p.1 "DUPLICATE_CHECK" "DUPLICATE_ORDER_ID" "Duplicate order ID")

/-- DataValidator.check_duplicates: logs every row of a duplicated key
and returns the frame with only first occurrences kept. -/
def checkDuplicates (rows : List (Nat × SalesRecord)) :
    List (Nat × SalesRecord) × List LogEntry :=
  ((splitDupsAux [] rows).1, dupLogEntries rows)

/-- Rows surviving the whole validation stage of _validate_data:
record validation then the duplicate pass. -/
def keptOf (rows : List SalesRecord) : List (Nat × SalesRecord) :=
  (checkDuplicates (validOf rows)).1

/-- Rows accepted by record validation but discarded by
drop_duplicates. -/
def droppedOf (rows : List SalesRecord) : List (Nat × SalesRecord) :=
  (splitDupsAux [] (validOf rows)).2

/-- Split a character list at blanks, accumulating the current word
reversed; a structural recursion usable by the kernel. -/
def splitWordsAux : List Char → List Char → List (List Char)
  | cur, [] => [cur.reverse]
  | cur, c :: cs =>
    if c = Char.ofNat 32 then cur.reverse :: splitWordsAux [] cs
    else splitWordsAux (c :: cur) cs

/-- The blank-separated words of a string. -/
def splitWords (s : String) : List String :=
  (splitWordsAux [] s.toList).map (fun w => String.mk w)

/-- Join strings with a separator. -/
def joinSep (sep : String) : List String → String
  | [] => ""
  | [w] => w
  | w :: ws => w ++ sep ++ joinSep sep ws

/-- ExceptionHandler._categorize_error: the fixed if-elif chain, in
source order: missing identifier, negative revenue, missing-or-sentinel
date, non-positive quantity, fallback. -/
def categorizeError (r : SalesRecord) : String :=
  if isMissingStr r.order_id then "MISSING_REQUIRED_FIELD"
  else if negRevenue r then "BUSINESS_RULE_VIOLATION"
  else if r.order_date = none ∨ r.order_date = some "invalid_date" then "DATA_FORMAT_ERROR"
  else if badQuantity r then "BUSINESS_RULE_VIOLATION"
  else "DATA_QUALITY_ISSUE"

/-- ExceptionHandler._generate_error_details: one human-readable reason
per violation found, joined by a fixed delimiter. -/
def generateErrorDetails (r : SalesRecord) : String :=
  let msgs :=
    (if isMissingStr r.order_id then ["Missing order ID"] else [])
    ++ (if isMissingStr r.region then ["Missing region"] else [])
    ++ (match r.order_date with
        | none => ["Missing order date"]
        | some s => if s == "invalid_date" then ["Invalid date format"] else [])
    ++ (if negRevenue r then ["Negative revenue"] else [])
    ++ (if badQuantity r then ["Invalid quantity"] else [])
    ++ (if badRegion r then ["Invalid region"] else [])
  if msgs.isEmpty then "Unknown error" else joinSep "; " msgs

/-- One quarantined record as built by ExceptionHandler.handle_exceptions. -/
structure ExceptionRecord where
  run_id : String
  original_record_id : Nat
  error_category : String
  pipeline_stage : String
  error_details : String
  raw : SalesRecord
deriving DecidableEq, Repr

def mkExceptionRecord (run : String) (stage : String) (p : Nat × SalesRecord) : ExceptionRecord :=
  { run_id := run, original_record_id := p.1,
    error_category := categorizeError p.2, pipeline_stage := stage,
    error_details := generateErrorDetails p.2, raw := p.2 }

/-- ExceptionHandler.handle_exceptions: one ExceptionRecord per row of
the invalid frame (the empty-frame early return is the empty map). -/
def handleExceptions (run : String) (invalid : List (Nat × SalesRecord)) : List ExceptionRecord :=
  invalid.map (mkExceptionRecord run "VALIDATION")

/-- Title-case one word as str.title does. -/
def titleWord (w : String) : String :=
  match w.toList with
  | [] => ""
  | c :: cs => String.mk (c.toUpper :: cs.map Char.toLower)

def titleCase (s : String) : String :=
  joinSep " " ((splitWords s).map titleWord)

/-- Round a / b half to even, as numpy rounding does, with integer
arithmetic only (b is never zero where this is used). -/
def roundHalfEvenInt (a b : Int) : Int :=
  let a2 := if b < 0 then -a else a
  let b2 := if b < 0 then -b else b
  let q := Int.fdiv a2 b2
  let r := a2 - q * b2
  if 2 * r < b2 then q
  else if b2 < 2 * r then q + 1
  else if q % 2 = 0 then q else q + 1

/-- A transformed row of DataTransformer.transform_clean_data: date
canonicalized, region title-cased, revenue_per_unit derived.  The
derived field holds round(revenue / quantity, 2) represented as an
integer count of hundredths (the value times 100); it is None when
either operand is missing and is guarded against a zero divisor, making
the division hazard explicit. -/
structure TransformedRecord where
  idx : Nat
  order_id : Option String
  order_date : Option String
  region : Option String
  product : String
  quantity : Option Int
  revenue : Option Int
  revenue_per_unit : Option Int
  run_id : String
deriving DecidableEq, Repr

def transformRecord (run : String) (p : Nat × SalesRecord) : TransformedRecord :=
  { idx := p.1, order_id := p.2.order_id,
    order_date := p.2.order_date.bind parseDate,
    region := p.2.region.map titleCase,
    product := p.2.product, quantity := p.2.quantity, revenue := p.2.revenue,
    revenue_per_unit :=
      match p.2.revenue, p.2.quantity with
      | some rev, some q => if q = 0 then none else some (roundHalfEvenInt (100 * rev) q)
      | _, _ => none,
    run_id := run }

/-- DataTransformer.transform_clean_data on the data level: the empty
frame short-circuits to an empty result. -/
def transformCleanData (run : String) (clean : List (Nat × SalesRecord)) : List TransformedRecord :=
  if clean.isEmpty then [] else clean.map (transformRecord run)

/-- One row of the analytics_summary table (timestamps dropped: no claim
inspects them). -/
structure Summary where
  run_id : String
  total_revenue : Int
  total_orders : Nat
  region : String
  product : String
  daily_sales : Int
  calculation_date : String
deriving DecidableEq, Repr

/-- pandas column sum: missing values contribute nothing. -/
def sumRev (l : List (Option Int)) : Int :=
  (l.map (fun o => o.getD 0)).sum

/-- The distinct group keys of a column in first-occurrence order.
pandas groupby emits keys sorted; every claim about the summaries is
insensitive to row order, so first-occurrence order is kept. -/
def distinctKeysAux {α : Type} [DecidableEq α] (seen : List α) : List α → List α
  | [] => []
  | a :: l => if a ∈ seen then distinctKeysAux seen l else a :: distinctKeysAux (a :: seen) l

def distinctKeys {α : Type} [DecidableEq α] (l : List α) : List α :=
  distinctKeysAux [] l

/-- groupby count on the order_id column counts non-null values. -/
def countIds (grp : List TransformedRecord) : Nat :=
  (grp.filter (fun t => t.order_id.isSome)).length

/-- DataTransformer._generate_analytics_summaries: the overall row, one
row per region present, one per product present, one per distinct
order date (groupby drops null keys). -/
def generateAnalyticsSummaries (run today : String) (df : List TransformedRecord) : List Summary :=
  let overall : Summary :=
    { run_id := run, total_revenue := sumRev (df.map (fun t => t.revenue)),
      total_orders := df.length, region := "ALL", product := "ALL",
      daily_sales := sumRev (df.map (fun t => t.revenue)), calculation_date := today }
  let regionRows := (distinctKeys (df.filterMap (fun t => t.region))).map (fun k =>
    let grp := df.filter (fun t => t.region == some k)
    { run_id := run, total_revenue := sumRev (grp.map (fun t => t.revenue)),
      total_orders := countIds grp, region := k, product := "ALL",
      daily_sales := sumRev (grp.map (fun t => t.revenue)), calculation_date := today })
  let productRows := (distinctKeys (df.map (fun t => t.product))).map (fun k =>
    let grp := df.filter (fun t => t.product == k)
    { run_id := run, total_revenue := sumRev (grp.map (fun t => t.revenue)),
      total_orders := countIds grp, region := "ALL", product := k,
      daily_sales := sumRev (grp.map (fun t => t.revenue)), calculation_date := today })
  let dailyRows := (distinctKeys (df.filterMap (fun t => t.order_date))).map (fun d =>
    let grp := df.filter (fun t => t.order_date == some d)
    { run_id := run, total_revenue := sumRev (grp.map (fun t => t.revenue)),
      total_orders := countIds grp, region := "ALL", product := "ALL",
      daily_sales := sumRev (grp.map (fun t => t.revenue)), calculation_date := d })
  overall :: (regionRows ++ productRows ++ dailyRows)

/-- First blank-separated word, as split()[0]. -/
def firstWord (s : String) : String := (splitWords s).headD ""

def charsStartWith : List Char → List Char → Bool
  | _, [] => true
  | [], _ :: _ => false
  | h :: t, n :: ns => h == n && charsStartWith t ns

def charsContain : List Char → List Char → Bool
  | hay, [] => hay == hay
  | [], _ :: _ => false
  | h :: t, n :: ns => charsStartWith (h :: t) (n :: ns) || charsContain t (n :: ns)

/-- str.contains(sub) substring containment. -/
def strContains (hay needle : String) : Bool :=
  charsContain hay.toList needle.toList

/-- The fixed reference product list of
SalesDataPipeline._generate_basic_analytics. -/
def referenceProducts : List String :=
  ["Tomato Ketchup 500g", "Chicken Biryani Ready Meal", "Paneer 200g",
   "Potato Chips 50g", "Mango Juice 1L"]

/-- SalesDataPipeline._generate_basic_analytics on the data level: the
overall row plus zero-filled rows for the fixed five regions and the
fixed reference products, all stamped with the run date; the raw and
invalid frames are accepted by the source but never read. -/
def generateBasicAnalytics (run today : String) (clean : List (Nat × SalesRecord)) : List Summary :=
  let totalRev := if clean.isEmpty then 0 else sumRev (clean.map (fun p => p.2.revenue))
  let overall : Summary :=
    { run_id := run, total_revenue := totalRev,
      total_orders := if clean.isEmpty then 0 else clean.length,
      region := "ALL", product := "ALL", daily_sales := totalRev,
      calculation_date := today }
  let regionRows := validRegions.map (fun reg =>
    let grp := clean.filter (fun p => p.2.region == some reg)
    let rev := if clean.isEmpty then 0 else sumRev (grp.map (fun p => p.2.revenue))
    { run_id := run, total_revenue := rev,
      total_orders := if clean.isEmpty then 0 else grp.length,
      region := reg, product := "ALL", daily_sales := rev,
      calculation_date := today })
  let productRows := referenceProducts.map (fun prod =>
    let grp := clean.filter (fun p => strContains p.2.product (firstWord prod))
    let rev := if clean.isEmpty then 0 else sumRev (grp.map (fun p => p.2.revenue))
    { run_id := run, total_revenue := rev,
      total_orders := if clean.isEmpty then 0 else grp.length,
      region := "ALL", product := prod, daily_sales := rev,
      calculation_date := today })
  overall :: (regionRows ++ productRows)

/-- DELETE FROM analytics_summary WHERE run_id = run, then append: the
replace-semantics write both summary generators use. -/
def replaceRun (db : List Summary) (run : String) (rows : List Summary) : List Summary :=
  db.filter (fun s => s.run_id ≠ run) ++ rows

/-- The rows of the analytics_summary table belonging to one run. -/
def runRows (run : String) (db : List Summary) : List Summary :=
  db.filter (fun s => s.run_id == run)

/-- Net effect of a successful run on the analytics_summary table:
step 4 writes the transformer summaries (skipped on an empty clean
frame), step 5 unconditionally replaces them with the basic analytics. -/
def runAnalyticsDb (run today : String) (db : List Summary) (rows : List SalesRecord) : List Summary :=
  let clean := keptOf rows
  let transformed := transformCleanData run clean
  let db1 := if transformed.isEmpty then db
             else replaceRun db run (generateAnalyticsSummaries run today transformed)
  replaceRun db1 run (generateBasicAnalytics run today clean)

/-- The required input columns of DataValidator.validate_schema. -/
def requiredColumns : List String :=
  ["order_id", "order_date", "region", "product", "quantity", "revenue"]

/-- DataValidator.validate_schema: every required column present. -/
def validateSchema (cols : List String) : Bool :=
  requiredColumns.all (fun c => cols.contains c)

/-- What SalesDataPipeline.run_pipeline can find at its source path: the
file may be absent, unreadable as CSV, or a parsed frame with a header
and rows. -/
inductive PipelineInput where
  | missingFile : PipelineInput
  | unreadable : PipelineInput
  | batch : List String → List SalesRecord → PipelineInput
deriving DecidableEq, Repr

/-- pd.read_csv at the source path: raises on a missing or unreadable
file, as modelled by the Except error. -/
def readSource : PipelineInput → Except String (List String × List SalesRecord)
  | .missingFile => .error "No such file or directory"
  | .unreadable => .error "Data ingestion failed"
  | .batch cols rows => .ok (cols, rows)

/-- The dictionary run_pipeline returns: the success branch carries the
counts, the failure branch only the error message. -/
structure RunResult where
  run_id : String
  status : String
  error : Option String
  total_records : Option Nat
  clean_records : Option Nat
  invalid_records : Option Nat
deriving DecidableEq, Repr

/-- SalesDataPipeline.run_pipeline: the try block runs ingestion, schema
check, validation, dedup, exception handling, transform and both
analytics passes; any raise is caught at the boundary and becomes a
FAILED result, after a best-effort basic-analytics pass over the
re-read raw frame whose own failure is swallowed (bare except: pass).
Returns the result dictionary and the analytics_summary table. -/
def runPipeline (run today : String) (db : List Summary) (input : PipelineInput) :
    RunResult × List Summary :=
  match readSource input with
  | .error e =>
      -- fallback: re-read the file; a missing file yields an empty raw
      -- frame (empty clean), an unreadable one raises inside the bare
      -- try and leaves the table untouched
      let db2 := match input with
        | .unreadable => db
        | _ => replaceRun db run (generateBasicAnalytics run today [])
      ({ run_id := run, status := "FAILED", error := some e,
         total_records := none, clean_records := none, invalid_records := none }, db2)
  | .ok (cols, rows) =>
      if validateSchema cols then
        ({ run_id := run, status := "SUCCESS", error := none,
           total_records := some rows.length,
           clean_records := some (keptOf rows).length,
           invalid_records := some (invalidOf rows).length },
         runAnalyticsDb run today db rows)
      else
        -- validate_schema failure raises inside _validate_data, is
        -- caught at the boundary; the fallback re-read succeeds and
        -- runs basic analytics over an empty clean frame
        ({ run_id := run, status := "FAILED",
           error := some "Schema validation failed",
           total_records := none, clean_records := none, invalid_records := none },
         replaceRun db run (generateBasicAnalytics run today []))

/-- The exception-handling step of run_pipeline: only the rule-rejected
frame reaches ExceptionHandler.handle_exceptions. -/
def pipelineExceptions (run : String) (rows : List SalesRecord) : List ExceptionRecord :=
  handleExceptions run (invalidOf rows)

/-! ### Supporting lemmas about the validator loop -/

theorem vaux_length (rows : List SalesRecord) : ∀ i,
    (validateRecordsAux i rows).1.length + (validateRecordsAux i rows).2.1.length = rows.length := by
  induction rows with
  | nil => intro i; simp [validateRecordsAux]
  | cons r rest ih =>
    intro i
    simp only [validateRecordsAux]
    split <;> simp only [List.length_cons] <;> have := ih (i + 1) <;> omega

theorem vaux_idx_ge_valid (rows : List SalesRecord) : ∀ i p,
    p ∈ (validateRecordsAux i rows).1 → i ≤ p.1 := by
  induction rows with
  | nil => intro i p hp; simp [validateRecordsAux] at hp
  | cons r rest ih =>
    intro i p hp
    simp only [validateRecordsAux] at hp
    split at hp
    · rcases List.mem_cons.mp hp with h | h
      · subst h; exact Nat.le_refl i
      · exact Nat.le_of_succ_le (ih (i + 1) p h)
    · exact Nat.le_of_succ_le (ih (i + 1) p hp)

theorem vaux_idx_ge_invalid (rows : List SalesRecord) : ∀ i p,
    p ∈ (validateRecordsAux i rows).2.1 → i ≤ p.1 := by
  induction rows with
  | nil => intro i p hp; simp [validateRecordsAux] at hp
  | cons r rest ih =>
    intro i p hp
    simp only [validateRecordsAux] at hp
    split at hp
    · exact Nat.le_of_succ_le (ih (i + 1) p hp)
    · rcases List.mem_cons.mp hp with h | h
      · subst h; exact Nat.le_refl i
      · exact Nat.le_of_succ_le (ih (i + 1) p h)

theorem vaux_valid_flag (rows : List SalesRecord) : ∀ i p,
    p ∈ (validateRecordsAux i rows).1 → (validateRecord p.1 p.2).1 = true := by
  induction rows with
  | nil => intro i p hp; simp [validateRecordsAux] at hp
  | cons r rest ih =>
    intro i p hp
    simp only [validateRecordsAux] at hp
    split at hp
    · rcases List.mem_cons.mp hp with h | h
      · subst h; assumption
      · exact ih (i + 1) p h
    · exact ih (i + 1) p hp

theorem vaux_invalid_flag (rows : List SalesRecord) : ∀ i p,
    p ∈ (validateRecordsAux i rows).2.1 → (validateRecord p.1 p.2).1 = false := by
  induction rows with
  | nil => intro i p hp; simp [validateRecordsAux] at hp
  | cons r rest ih =>
    intro i p hp
    simp only [validateRecordsAux] at hp
    split at hp
    · exact ih (i + 1) p hp
    · rcases List.mem_cons.mp hp with h | h
      · subst h; simp_all
      · exact ih (i + 1) p h

theorem vaux_disjoint (rows : List SalesRecord) : ∀ i p q,
    p ∈ (validateRecordsAux i rows).1 → q ∈ (validateRecordsAux i rows).2.1 → p.1 ≠ q.1 := by
  induction rows with
  | nil => intro i p q hp; simp [validateRecordsAux] at hp
  | cons r rest ih =>
    intro i p q hp hq
    cases hfl : (validateRecord i r).1 with
    | true =>
      simp only [validateRecordsAux, hfl, if_true] at hp hq
      rcases List.mem_cons.mp hp with h | h
      · subst h
        have := vaux_idx_ge_invalid rest (i + 1) q hq
        omega
      · exact ih (i + 1) p q h hq
    | false =>
      simp only [validateRecordsAux, hfl, Bool.false_eq_true, if_false] at hp hq
      rcases List.mem_cons.mp hq with h | h
      · subst h
        have := vaux_idx_ge_valid rest (i + 1) p hp
        omega
      · exact ih (i + 1) p q hp h

theorem vaux_nodup_valid (rows : List SalesRecord) : ∀ i,
    ((validateRecordsAux i rows).1.map Prod.fst).Nodup := by
  induction rows with
  | nil => intro i; simp [validateRecordsAux]
  | cons r rest ih =>
    intro i
    simp only [validateRecordsAux]
    split
    · simp only [List.map_cons, List.nodup_cons]
      refine ⟨fun hmem => ?_, ih (i + 1)⟩
      rcases List.mem_map.mp hmem with ⟨p, hp, hfst⟩
      have := vaux_idx_ge_valid rest (i + 1) p hp
      omega
    · exact ih (i + 1)

/-! ### Supporting lemmas about the duplicate pass -/

theorem splitDups_perm (l : List (Nat × SalesRecord)) : ∀ seen,
    ((splitDupsAux seen l).1 ++ (splitDupsAux seen l).2).Perm l := by
  induction l with
  | nil => intro seen; simp [splitDupsAux]
  | cons p rest ih =>
    intro seen
    by_cases h : p.2.order_id ∈ seen
    · simp only [splitDupsAux, if_pos h]
      exact List.perm_middle.trans ((ih seen).cons p)
    · simp only [splitDupsAux, if_neg h, List.cons_append]
      exact (ih (p.2.order_id :: seen)).cons p

theorem splitDups_kept_sub (l : List (Nat × SalesRecord)) : ∀ seen p,
    p ∈ (splitDupsAux seen l).1 → p ∈ l := by
  induction l with
  | nil => intro seen p hp; simp [splitDupsAux] at hp
  | cons a rest ih =>
    intro seen p hp
    by_cases h : a.2.order_id ∈ seen
    · simp only [splitDupsAux, if_pos h] at hp
      exact List.mem_cons_of_mem a (ih seen p hp)
    · simp only [splitDupsAux, if_neg h] at hp
      rcases List.mem_cons.mp hp with h2 | h2
      · subst h2; exact List.mem_cons_self p rest
      · exact List.mem_cons_of_mem a (ih _ p h2)

theorem splitDups_dropped_sub (l : List (Nat × SalesRecord)) : ∀ seen p,
    p ∈ (splitDupsAux seen l).2 → p ∈ l := by
  induction l with
  | nil => intro seen p hp; simp [splitDupsAux] at hp
  | cons a rest ih =>
    intro seen p hp
    by_cases h : a.2.order_id ∈ seen
    · simp only [splitDupsAux, if_pos h] at hp
      rcases List.mem_cons.mp hp with h2 | h2
      · subst h2; exact List.mem_cons_self p rest
      · exact List.mem_cons_of_mem a (ih seen p h2)
    · simp only [splitDupsAux, if_neg h] at hp
      exact List.mem_cons_of_mem a (ih _ p hp)

theorem splitDups_dropped_partner (l : List (Nat × SalesRecord)) : ∀ seen p,
    p ∈ (splitDupsAux seen l).2 →
    p.2.order_id ∈ seen ∨ ∃ q, q ∈ (splitDupsAux seen l).1 ∧ q.2.order_id = p.2.order_id := by
  induction l with
  | nil => intro seen p hp; simp [splitDupsAux] at hp
  | cons a rest ih =>
    intro seen p hp
    by_cases h : a.2.order_id ∈ seen
    · simp only [splitDupsAux, if_pos h] at hp ⊢
      rcases List.mem_cons.mp hp with h2 | h2
      · subst h2; exact Or.inl h
      · exact ih seen p h2
    · simp only [splitDupsAux, if_neg h] at hp ⊢
      rcases ih _ p hp with h2 | ⟨q, hq, hqk⟩
      · rcases List.mem_cons.mp h2 with h3 | h3
        · exact Or.inr ⟨a, List.mem_cons_self _ _, h3.symm⟩
        · exact Or.inl h3
      · exact Or.inr ⟨q, List.mem_cons_of_mem a hq, hqk⟩

theorem two_le_length_of_mem {α : Type} {l : List α} {a b : α}
    (ha : a ∈ l) (hb : b ∈ l) (hne : a ≠ b) : 2 ≤ l.length := by
  rcases List.append_of_mem ha with ⟨s, t, rfl⟩
  rcases List.mem_append.mp hb with h | h
  · have := List.length_pos.mpr (List.ne_nil_of_mem h)
    simp only [List.length_append, List.length_cons]
    omega
  · rcases List.mem_cons.mp h with h2 | h2
    · exact absurd h2.symm hne
    · have := List.length_pos.mpr (List.ne_nil_of_mem h2)
      simp only [List.length_append, List.length_cons]
      omega

/-! ### Per-record characterization of the rule checks -/

theorem boolEntries_eq_nil {b : Bool} {e : LogEntry} : boolEntries b e = [] ↔ b = false := by
  cases b <;> simp [boolEntries]

theorem dateEntries_eq_nil (idx : Nat) (d : Option String) :
    dateEntries idx d = [] ↔ dateOk d = true := by
  cases d with
  | none => simp [dateEntries, dateOk]
  | some s =>
    by_cases hs : s == "invalid_date"
    · simp [dateEntries, dateOk, hs]
    · cases hp : parseDate s <;> simp [dateEntries, dateOk, hs, hp]

theorem failEntriesOf_eq_nil (idx : Nat) (r : SalesRecord) :
    failEntriesOf idx r = [] ↔
      (isMissingStr r.order_id = false ∧ isMissingStr r.region = false ∧
       dateOk r.order_date = true ∧ negRevenue r = false ∧
       badQuantity r = false ∧ badRegion r = false) := by
  simp only [failEntriesOf, List.append_eq_nil, boolEntries_eq_nil, dateEntries_eq_nil]
  tauto

theorem valid_flag_iff (idx : Nat) (r : SalesRecord) :
    (validateRecord idx r).1 = true ↔
      (isMissingStr r.order_id = false ∧ isMissingStr r.region = false ∧
       dateOk r.order_date = true ∧ negRevenue r = false ∧
       badQuantity r = false ∧ badRegion r = false) := by
  rw [← failEntriesOf_eq_nil idx r]
  unfold validateRecord
  by_cases h : (failEntriesOf idx r).isEmpty
  · simp [h, List.isEmpty_iff.mp h]
  · simp only [h, if_false]
    simp only [List.isEmpty_iff] at h
    simp [h]

theorem dateEntries_status (idx : Nat) (d : Option String) :
    ∀ e ∈ dateEntries idx d, e.status = "FAILED" := by
  cases d with
  | none => simp [dateEntries, failEntry]
  | some s =>
    by_cases hs : s == "invalid_date"
    · simp [dateEntries, hs, failEntry]
    · cases hp : parseDate s <;> simp [dateEntries, hs, hp, failEntry]

theorem failEntriesOf_status (idx : Nat) (r : SalesRecord) :
    ∀ e ∈ failEntriesOf idx r, e.status = "FAILED" := by
  intro e he
  simp only [failEntriesOf, List.mem_append] at he
  rcases he with ((((h | h) | h) | h) | h) | h
  all_goals first
    | exact dateEntries_status idx r.order_date e h
    | (simp only [boolEntries] at h ; split at h <;> simp_all [failEntry])

theorem dateEntries_length (idx : Nat) (d : Option String) :
    (dateEntries idx d).length = cond (dateOk d) 0 1 := by
  cases d with
  | none => simp [dateEntries, dateOk]
  | some s =>
    by_cases hs : s == "invalid_date"
    · simp [dateEntries, dateOk, hs]
    · cases hp : parseDate s <;> simp [dateEntries, dateOk, hs, hp]

/-- How many of the six rule checks a record fails. -/
def ruleViolationCount (r : SalesRecord) : Nat :=
  cond (isMissingStr r.order_id) 1 0 + cond (isMissingStr r.region) 1 0 +
  cond (dateOk r.order_date) 0 1 + cond (negRevenue r) 1 0 +
  cond (badQuantity r) 1 0 + cond (badRegion r) 1 0

theorem failEntriesOf_length (idx : Nat) (r : SalesRecord) :
    (failEntriesOf idx r).length = ruleViolationCount r := by
  simp only [failEntriesOf, ruleViolationCount, List.length_append, dateEntries_length,
    boolEntries]
  cases isMissingStr r.order_id <;> cases isMissingStr r.region <;>
    cases dateOk r.order_date <;> cases negRevenue r <;>
    cases badQuantity r <;> cases badRegion r <;> simp

/-! ### First-wins specification of the duplicate pass -/

/-- Keep-first stated the way the spec words it: keep the head, discard
every later occurrence of its identifier, recurse on the rest. -/
def keepFirstSpec : List (Nat × SalesRecord) → List (Nat × SalesRecord)
  | [] => []
  | p :: rest =>
    p :: keepFirstSpec (rest.filter (fun q => decide (q.2.order_id ≠ p.2.order_id)))
termination_by l => l.length
decreasing_by
  simp only [List.length_cons]
  exact Nat.lt_succ_of_le (List.length_filter_le _ _)


theorem splitDups_eq_keepFirstSpec_aux :
    ∀ n l seen, l.length ≤ n →
      (splitDupsAux seen l).1 =
        keepFirstSpec (l.filter (fun q => decide (q.2.order_id ∉ seen))) := by
  intro n
  induction n with
  | zero =>
    intro l seen hl
    have : l = [] := List.length_eq_zero.mp (Nat.le_zero.mp hl)
    subst this
    simp [splitDupsAux, keepFirstSpec]
  | succ n ih =>
    intro l seen hl
    cases l with
    | nil => simp [splitDupsAux, keepFirstSpec]
    | cons a rest =>
      simp only [List.length_cons, Nat.succ_le_succ_iff] at hl
      by_cases h : a.2.order_id ∈ seen
      · have h1 : (splitDupsAux seen (a :: rest)).1 = (splitDupsAux seen rest).1 := by
          simp [splitDupsAux, h]
        have h2 : (a :: rest).filter (fun q => decide (q.2.order_id ∉ seen)) =
            rest.filter (fun q => decide (q.2.order_id ∉ seen)) := by
          simp [List.filter_cons, h]
        rw [h1, h2, ih rest seen hl]
      · have h1 : (splitDupsAux seen (a :: rest)).1 =
            a :: (splitDupsAux (a.2.order_id :: seen) rest).1 := by
          simp [splitDupsAux, h]
        have h2 : (a :: rest).filter (fun q => decide (q.2.order_id ∉ seen)) =
            a :: rest.filter (fun q => decide (q.2.order_id ∉ seen)) := by
          simp [List.filter_cons, h]
        rw [h1, h2, ih rest _ hl]
        simp only [keepFirstSpec, List.filter_filter]
        congr 2
        apply List.filter_congr
        intro q _
        by_cases hq : q.2.order_id = a.2.order_id <;> by_cases hq2 : q.2.order_id ∈ seen <;>
          simp [hq, hq2]

theorem splitDups_eq_keepFirstSpec (l : List (Nat × SalesRecord)) :
    (splitDupsAux [] l).1 = keepFirstSpec l := by
  have := splitDups_eq_keepFirstSpec_aux l.length l [] (Nat.le_refl _)
  simpa using this

/-! ### Supporting lemmas about the summary generators and the table -/

theorem distinctKeysAux_mem {α : Type} [DecidableEq α] (l : List α) : ∀ seen a,
    a ∈ distinctKeysAux seen l ↔ a ∈ l ∧ a ∉ seen := by
  induction l with
  | nil => intro seen a; simp [distinctKeysAux]
  | cons b rest ih =>
    intro seen a
    by_cases hb : b ∈ seen
    · rw [distinctKeysAux, if_pos hb, ih]
      simp only [List.mem_cons]
      constructor
      · rintro ⟨h1, h2⟩
        exact ⟨Or.inr h1, h2⟩
      · rintro ⟨h1 | h1, h2⟩
        · exact absurd (h1 ▸ hb) h2
        · exact ⟨h1, h2⟩
    · rw [distinctKeysAux, if_neg hb]
      simp only [List.mem_cons, ih, List.mem_cons]
      constructor
      · rintro (rfl | ⟨h1, h2⟩)
        · exact ⟨Or.inl rfl, hb⟩
        · exact ⟨Or.inr h1, fun hc => h2 (Or.inr hc)⟩
      · rintro ⟨h1 | h1, h2⟩
        · subst h1
          exact Or.inl rfl
        · by_cases hab : a = b
          · subst hab
            exact Or.inl rfl
          · exact Or.inr ⟨h1, fun hc => hc.elim (fun h3 => hab h3) h2⟩

theorem distinctKeys_mem {α : Type} [DecidableEq α] (l : List α) (a : α) :
    a ∈ distinctKeys l ↔ a ∈ l := by
  simp [distinctKeys, distinctKeysAux_mem]

theorem genBasicAnalytics_run_id (run today : String) (clean : List (Nat × SalesRecord)) :
    ∀ s ∈ generateBasicAnalytics run today clean, s.run_id = run := by
  intro s hs
  simp only [generateBasicAnalytics] at hs
  rcases List.mem_cons.mp hs with h | h
  · subst h; rfl
  rcases List.mem_append.mp h with h | h
  · rcases List.mem_map.mp h with ⟨x, hx, rfl⟩
    rfl
  · rcases List.mem_map.mp h with ⟨x, hx, rfl⟩
    rfl

theorem genBasicAnalytics_calc_date (run today : String) (clean : List (Nat × SalesRecord)) :
    ∀ s ∈ generateBasicAnalytics run today clean, s.calculation_date = today := by
  intro s hs
  simp only [generateBasicAnalytics] at hs
  rcases List.mem_cons.mp hs with h | h
  · subst h; rfl
  rcases List.mem_append.mp h with h | h
  · rcases List.mem_map.mp h with ⟨x, hx, rfl⟩
    rfl
  · rcases List.mem_map.mp h with ⟨x, hx, rfl⟩
    rfl

theorem genSummaries_run_id (run today : String) (df : List TransformedRecord) :
    ∀ s ∈ generateAnalyticsSummaries run today df, s.run_id = run := by
  intro s hs
  simp only [generateAnalyticsSummaries] at hs
  rcases List.mem_cons.mp hs with h | h
  · subst h; rfl
  rcases List.mem_append.mp h with h | h
  · rcases List.mem_append.mp h with h | h
    · rcases List.mem_map.mp h with ⟨x, hx, rfl⟩
      rfl
    · rcases List.mem_map.mp h with ⟨x, hx, rfl⟩
      rfl
  · rcases List.mem_map.mp h with ⟨x, hx, rfl⟩
    rfl

theorem runRows_replaceRun (db : List Summary) (run : String) (rows : List Summary)
    (h : ∀ s ∈ rows, s.run_id = run) :
    runRows run (replaceRun db run rows) = rows := by
  simp only [runRows, replaceRun, List.filter_append]
  have h1 : List.filter (fun s => s.run_id == run)
      (List.filter (fun s => decide (s.run_id ≠ run)) db) = [] := by
    apply List.filter_eq_nil_iff.mpr
    intro s hs
    have h2 := (List.mem_filter.mp hs).2
    simp only [decide_not, Bool.not_eq_eq_eq_not, Bool.not_true, decide_eq_false_iff_not] at h2
    simp [h2]
  have h3 : List.filter (fun s => s.run_id == run) rows = rows := by
    apply List.filter_eq_self.mpr
    intro s hs
    simp [h s hs]
  rw [h1, h3, List.nil_append]

theorem replaceRun_idem (db : List Summary) (run : String) (rows : List Summary)
    (h : ∀ s ∈ rows, s.run_id = run) :
    replaceRun (replaceRun db run rows) run rows = replaceRun db run rows := by
  simp only [replaceRun, List.filter_append]
  have h1 : rows.filter (fun s => decide (s.run_id ≠ run)) = [] := by
    apply List.filter_eq_nil_iff.mpr
    intro s hs
    simp [h s hs]
  rw [h1, List.append_nil, List.filter_filter]
  congr 1
  apply List.filter_congr
  intro s _
  simp

/-! ### Violation types and log counts -/

/-- The control types of the FAILED entries a record produced: the
violation list the audit log records for it. -/
def failedTypesOf (idx : Nat) (r : SalesRecord) : List String :=
  ((validateRecord idx r).2.filter (fun e => e.status == "FAILED")).map
    (fun e => e.control_type)

/-- The control type the date check logs in each failing case. -/
def dateTypes : Option String → List String
  | none => ["MISSING_DATE"]
  | some s =>
    if s == "invalid_date" then ["INVALID_FORMAT"]
    else
      match parseDate s with
      | some _ => []
      | none => ["PARSE_ERROR"]

theorem map_boolEntries (b : Bool) (e : LogEntry) (f : LogEntry → String) :
    (boolEntries b e).map f = if b then [f e] else [] := by
  cases b <;> simp [boolEntries]

theorem map_dateEntries (idx : Nat) (d : Option String) :
    (dateEntries idx d).map (fun e => e.control_type) = dateTypes d := by
  cases d with
  | none => simp [dateEntries, dateTypes, failEntry]
  | some s =>
    by_cases hs : s == "invalid_date"
    · simp [dateEntries, dateTypes, hs, failEntry]
    · cases hp : parseDate s <;> simp [dateEntries, dateTypes, hs, hp, failEntry]

theorem failEntriesOf_types (idx : Nat) (r : SalesRecord) :
    (failEntriesOf idx r).map (fun e => e.control_type) =
      (if isMissingStr r.order_id then ["MISSING_ORDER_ID"] else [])
      ++ (if isMissingStr r.region then ["MISSING_REGION"] else [])
      ++ dateTypes r.order_date
      ++ (if negRevenue r then ["NEGATIVE_REVENUE"] else [])
      ++ (if badQuantity r then ["INVALID_QUANTITY"] else [])
      ++ (if badRegion r then ["INVALID_REGION"] else []) := by
  simp only [failEntriesOf, List.map_append, map_boolEntries, map_dateEntries, failEntry]

theorem filter_failed_of_all_failed (l : List LogEntry)
    (h : ∀ e ∈ l, e.status = "FAILED") :
    l.filter (fun e => e.status == "FAILED") = l := by
  apply List.filter_eq_self.mpr
  intro e he
  simp [h e he]

theorem failedTypesOf_eq (idx : Nat) (r : SalesRecord) :
    failedTypesOf idx r = (failEntriesOf idx r).map (fun e => e.control_type) := by
  unfold failedTypesOf validateRecord
  by_cases h : (failEntriesOf idx r).isEmpty = true
  · have h2 : failEntriesOf idx r = [] := List.isEmpty_iff.mp h
    rw [if_pos h, h2]
    simp [passEntry]
  · rw [if_neg h]
    rw [filter_failed_of_all_failed _ (failEntriesOf_status idx r)]

theorem dateTypes_eq_nil (d : Option String) : dateTypes d = [] ↔ dateOk d = true := by
  cases d with
  | none => simp [dateTypes, dateOk]
  | some s =>
    by_cases hs : s == "invalid_date"
    · simp [dateTypes, dateOk, hs]
    · cases hp : parseDate s <;> simp [dateTypes, dateOk, hs, hp]

theorem validateRecord_passed_count (idx : Nat) (r : SalesRecord) :
    (((validateRecord idx r).2.filter (fun e => e.status == "PASSED")).length) =
      (if (validateRecord idx r).1 = true then 1 else 0) := by
  unfold validateRecord
  by_cases h : (failEntriesOf idx r).isEmpty = true
  · rw [if_pos h]
    simp [passEntry]
  · rw [if_neg h, if_neg (by simp)]
    rw [List.filter_eq_nil_iff.mpr, List.length_nil]
    intro e he
    have := failEntriesOf_status idx r e he
    simp [this]

theorem validateRecord_failed_count (idx : Nat) (r : SalesRecord) :
    (((validateRecord idx r).2.filter (fun e => e.status == "FAILED")).length) =
      ruleViolationCount r := by
  unfold validateRecord
  by_cases h : (failEntriesOf idx r).isEmpty = true
  · have h2 : failEntriesOf idx r = [] := List.isEmpty_iff.mp h
    have h3 : ruleViolationCount r = 0 := by
      rw [← failEntriesOf_length idx r, h2, List.length_nil]
    rw [if_pos h, h3]
    simp [passEntry]
  · rw [if_neg h]
    rw [filter_failed_of_all_failed _ (failEntriesOf_status idx r)]
    exact failEntriesOf_length idx r

theorem vaux_log_passed (rows : List SalesRecord) : ∀ i,
    (((validateRecordsAux i rows).2.2.filter (fun e => e.status == "PASSED")).length) =
      (validateRecordsAux i rows).1.length := by
  induction rows with
  | nil => intro i; simp [validateRecordsAux]
  | cons r rest ih =>
    intro i
    have hrec := validateRecord_passed_count i r
    cases hfl : (validateRecord i r).1 with
    | true =>
      simp only [validateRecordsAux, hfl, if_true, List.filter_append, List.length_append,
        List.length_cons]
      rw [hfl] at hrec
      simp only [if_true] at hrec
      rw [hrec, ih (i + 1)]
      omega
    | false =>
      simp only [validateRecordsAux, hfl, Bool.false_eq_true, if_false, List.filter_append,
        List.length_append]
      rw [hfl] at hrec
      simp only [Bool.false_eq_true, if_false] at hrec
      rw [hrec, ih (i + 1)]
      omega

theorem vaux_log_failed (rows : List SalesRecord) : ∀ i,
    (((validateRecordsAux i rows).2.2.filter (fun e => e.status == "FAILED")).length) =
      (rows.map ruleViolationCount).sum := by
  induction rows with
  | nil => intro i; simp [validateRecordsAux]
  | cons r rest ih =>
    intro i
    have hrec := validateRecord_failed_count i r
    cases hfl : (validateRecord i r).1 <;>
      simp only [validateRecordsAux, hfl, Bool.false_eq_true, if_true, if_false,
        List.filter_append, List.length_append, List.map_cons, List.sum_cons] <;>
      rw [hrec, ih (i + 1)]

theorem validateRecord_total_count (idx : Nat) (r : SalesRecord) :
    (validateRecord idx r).2.length =
      (if (validateRecord idx r).1 = true then 1 else ruleViolationCount r) := by
  unfold validateRecord
  by_cases h : (failEntriesOf idx r).isEmpty = true
  · rw [if_pos h]
    simp
  · rw [if_neg h, if_neg (by simp)]
    exact failEntriesOf_length idx r

theorem vaux_log_total (rows : List SalesRecord) : ∀ i,
    (validateRecordsAux i rows).2.2.length =
      (validateRecordsAux i rows).1.length + (rows.map ruleViolationCount).sum := by
  induction rows with
  | nil => intro i; simp [validateRecordsAux]
  | cons r rest ih =>
    intro i
    have hrec := validateRecord_total_count i r
    have hval := valid_flag_iff i r
    cases hfl : (validateRecord i r).1 with
    | true =>
      have h0 : ruleViolationCount r = 0 := by
        rw [← failEntriesOf_length i r,
          (failEntriesOf_eq_nil i r).mpr ((valid_flag_iff i r).mp hfl), List.length_nil]
      simp only [validateRecordsAux, hfl, if_true, List.length_append, List.length_cons,
        List.map_cons, List.sum_cons]
      rw [hfl] at hrec
      simp only [if_true] at hrec
      rw [hrec, ih (i + 1), h0]
      omega
    | false =>
      simp only [validateRecordsAux, hfl, Bool.false_eq_true, if_false, List.length_append,
        List.map_cons, List.sum_cons]
      rw [hfl] at hrec
      simp only [Bool.false_eq_true, if_false] at hrec
      rw [hrec, ih (i + 1)]
      omega

/-! ### Concrete records used by the examples -/

/-- A fully valid North record with identifier A. -/
def recA1 : SalesRecord :=
  { order_id := some "A", order_date := some "2024-01-01", region := some "North",
    product := "Paneer 200g", quantity := some 5, revenue := some 100 }

/-- A second valid record with the same identifier A. -/
def recA2 : SalesRecord :=
  { order_id := some "A", order_date := some "2024-01-02", region := some "North",
    product := "Tomato Ketchup 500g", quantity := some 3, revenue := some 60 }

/-- A third valid record with the same identifier A. -/
def recA3 : SalesRecord :=
  { order_id := some "A", order_date := some "2024-01-03", region := some "North",
    product := "Potato Chips 50g", quantity := some 2, revenue := some 30 }

/-- A valid South record with identifier B. -/
def recB : SalesRecord :=
  { order_id := some "B", order_date := some "2024-01-02", region := some "South",
    product := "Mango Juice 1L", quantity := some 1, revenue := some 20 }

/-- A record whose only failing checks are the empty identifier. -/
def recEmptyId : SalesRecord :=
  { order_id := some "", order_date := some "2024-01-04", region := some "South",
    product := "Paneer 200g", quantity := some 2, revenue := some 20 }

/-- Non-positive quantity and a missing date together. -/
def recQtyZeroNoDate : SalesRecord :=
  { order_id := some "O1", order_date := none, region := some "North",
    product := "Paneer 200g", quantity := some 0, revenue := some 50 }

/-- Valid in every rule except an unparseable (non-sentinel) date. -/
def recBadDateOnly : SalesRecord :=
  { order_id := some "O2", order_date := some "2024-13-05", region := some "North",
    product := "Paneer 200g", quantity := some 2, revenue := some 10 }

/-- Missing identifier and negative revenue together. -/
def recNoIdNegRev : SalesRecord :=
  { order_id := none, order_date := some "2024-01-01", region := some "North",
    product := "Paneer 200g", quantity := some 1, revenue := some (-5) }

/-- A record that passes every rule while its quantity is absent. -/
def recNoQty : SalesRecord :=
  { order_id := some "Q1", order_date := some "2024-01-05", region := some "North",
    product := "Paneer 200g", quantity := none, revenue := some 100 }

theorem splitDups_kept_dropped_disjoint (l : List (Nat × SalesRecord))
    (hnd : (l.map Prod.fst).Nodup) : ∀ seen p,
    p ∈ (splitDupsAux seen l).1 → p ∈ (splitDupsAux seen l).2 → False := by
  induction l with
  | nil => intro seen p hp; simp [splitDupsAux] at hp
  | cons a rest ih =>
    rw [List.map_cons, List.nodup_cons] at hnd
    intro seen p hp hq
    by_cases h : a.2.order_id ∈ seen
    · simp only [splitDupsAux, if_pos h] at hp hq
      rcases List.mem_cons.mp hq with h2 | h2
      · subst h2
        exact hnd.1 (List.mem_map_of_mem _ (splitDups_kept_sub rest seen p hp))
      · exact ih hnd.2 seen p hp h2
    · simp only [splitDupsAux, if_neg h] at hp hq
      rcases List.mem_cons.mp hp with h2 | h2
      · subst h2
        exact hnd.1 (List.mem_map_of_mem _ (splitDups_dropped_sub rest _ p hq))
      · exact ih hnd.2 _ p h2 hq

/-! ### Claim theorems -/

/-- Claim C1, counterexample.  The claim orders the categorizer as
identifier, then (negative revenue or non-positive quantity), then date.
The code checks the date between the two business rules: a record with a
non-positive quantity and a missing date is categorized
DATA_FORMAT_ERROR, not BUSINESS_RULE_VIOLATION; and a record whose only
violation is an unparseable non-sentinel date is categorized
DATA_QUALITY_ISSUE, not DATA_FORMAT_ERROR. -/
theorem claim_C1_counterexample :
    badQuantity recQtyZeroNoDate = true ∧ recQtyZeroNoDate.order_date = none ∧
    categorizeError recQtyZeroNoDate = "DATA_FORMAT_ERROR" ∧
    failedTypesOf 0 recBadDateOnly = ["PARSE_ERROR"] ∧
    categorizeError recBadDateOnly = "DATA_QUALITY_ISSUE" := by decide

/-- Claim C1, amended.  The categorizer returns exactly one of the four
categories by the fixed priority order of the source: missing or empty
identifier, then negative revenue, then date missing or equal to the
literal sentinel, then non-positive quantity, then the fallback. -/
theorem claim_C1_categorizer_priority (r : SalesRecord) :
    (categorizeError r = "MISSING_REQUIRED_FIELD" ∨
     categorizeError r = "BUSINESS_RULE_VIOLATION" ∨
     categorizeError r = "DATA_FORMAT_ERROR" ∨
     categorizeError r = "DATA_QUALITY_ISSUE") ∧
    (isMissingStr r.order_id = true → categorizeError r = "MISSING_REQUIRED_FIELD") ∧
    (isMissingStr r.order_id = false → negRevenue r = true →
      categorizeError r = "BUSINESS_RULE_VIOLATION") ∧
    (isMissingStr r.order_id = false → negRevenue r = false →
      (r.order_date = none ∨ r.order_date = some "invalid_date") →
      categorizeError r = "DATA_FORMAT_ERROR") ∧
    (isMissingStr r.order_id = false → negRevenue r = false →
      ¬(r.order_date = none ∨ r.order_date = some "invalid_date") → badQuantity r = true →
      categorizeError r = "BUSINESS_RULE_VIOLATION") ∧
    (isMissingStr r.order_id = false → negRevenue r = false →
      ¬(r.order_date = none ∨ r.order_date = some "invalid_date") → badQuantity r = false →
      categorizeError r = "DATA_QUALITY_ISSUE") := by
  unfold categorizeError
  by_cases h1 : isMissingStr r.order_id = true
  · simp [h1]
  · have h1f : isMissingStr r.order_id = false := by simpa using h1
    by_cases h2 : negRevenue r = true
    · simp [h1f, h2]
    · have h2f : negRevenue r = false := by simpa using h2
      by_cases h3 : r.order_date = none ∨ r.order_date = some "invalid_date"
      · simp [h1f, h2f, h3]
      · by_cases h4 : badQuantity r = true
        · simp [h1f, h2f, h3, h4]
        · have h4f : badQuantity r = false := by simpa using h4
          simp [h1f, h2f, h3, h4f]

/-- Claim C1 witness: the record missing its identifier with negative
revenue is categorized MISSING_REQUIRED_FIELD by priority 1. -/
theorem claim_C1_witness :
    isMissingStr recNoIdNegRev.order_id = true ∧ negRevenue recNoIdNegRev = true ∧
    categorizeError recNoIdNegRev = "MISSING_REQUIRED_FIELD" :=
  ⟨by decide, by decide, (claim_C1_categorizer_priority recNoIdNegRev).2.1 (by decide)⟩

/-- Claim C2.  After record validation and the duplicate pass, the three
populations kept, duplicate-dropped and rejected have sizes summing to
the batch size, and kept together with dropped is a permutation of the
accepted population: every record lands in exactly one population. -/
theorem claim_C2_partition (rows : List SalesRecord) :
    (keptOf rows).length + (droppedOf rows).length + (invalidOf rows).length = rows.length ∧
    (keptOf rows ++ droppedOf rows).Perm (validOf rows) := by
  have hperm : ((splitDupsAux [] (validOf rows)).1 ++
      (splitDupsAux [] (validOf rows)).2).Perm (validOf rows) :=
    splitDups_perm (validOf rows) []
  have hlen := vaux_length rows 0
  have hl2 := hperm.length_eq
  simp only [List.length_append] at hl2
  refine ⟨?_, hperm⟩
  simp only [keptOf, droppedOf, checkDuplicates, validOf, invalidOf, validateRecords] at *
  omega

/-- Claim C3, counterexample.  A record with every field valid but the
quantity absent is accepted, survives deduplication and reaches the
transformer, where its quantity is not present: the division is skipped
(revenue_per_unit is null), so quantity is not guaranteed present and
positive as claimed. -/
theorem claim_C3_counterexample :
    keptOf [recNoQty] = [(0, recNoQty)] ∧
    recNoQty.quantity = none ∧
    transformCleanData "r1" (keptOf [recNoQty]) = [transformRecord "r1" (0, recNoQty)] ∧
    (transformRecord "r1" (0, recNoQty)).revenue_per_unit = none := by decide

/-- Claim C3, amended.  Every record surviving validation and
deduplication has a quantity that is positive whenever it is present; in
particular the quantity is never zero, so the revenue-per-unit division
can never divide by zero, but the quantity may be absent. -/
theorem claim_C3_transformer_quantity (rows : List SalesRecord) (p : Nat × SalesRecord)
    (hp : p ∈ keptOf rows) :
    p.2.quantity ≠ some 0 ∧ (∀ q, p.2.quantity = some q → 0 < q) := by
  have h1 : p ∈ validOf rows := splitDups_kept_sub (validOf rows) [] p hp
  have h2 := vaux_valid_flag rows 0 p h1
  have h3 := (valid_flag_iff p.1 p.2).mp h2
  have h5 : badQuantity p.2 = false := h3.2.2.2.2.1
  unfold badQuantity at h5
  constructor
  · intro hq
    rw [hq] at h5
    simp at h5
  · intro q hq
    rw [hq] at h5
    simp at h5
    omega

/-- Claim C3 witness at a concrete kept record. -/
theorem claim_C3_witness :
    (0, recA1).2.quantity ≠ some 0 ∧ (∀ q, (0, recA1).2.quantity = some q → 0 < q) :=
  claim_C3_transformer_quantity [recA1] (0, recA1) (by decide)

/-- Claim C4, counterexample.  On a two-record batch with two distinct
order dates, the date 2024-01-01 is present in the transformed data,
yet the final persisted summary set of the run has no row carrying that
calendar date: the basic-analytics pass, which runs last and replaces
the transformer summaries, emits no per-date rows. -/
theorem claim_C4_counterexample :
    (transformCleanData "r4" (keptOf [recA1, recB])).filterMap (fun t => t.order_date) =
      ["2024-01-01", "2024-01-02"] ∧
    (runRows "r4" (runAnalyticsDb "r4" "2024-06-01" [] [recA1, recB])).filter
      (fun s => s.calculation_date == "2024-01-01") = [] := by decide

/-- Claim C4, amended.  The final persisted aggregation output of a run
equals the basic-analytics row set: one (ALL, ALL) grand total, one row
per region of the fixed five-region set and one row per product of the
fixed reference list, zero-filled when nothing matches, every row
stamped with the run date.  Per-date rows exist only in the intermediate
transformer summaries, which the final pass deletes and replaces. -/
theorem claim_C4_aggregation_rows (run today : String) (db : List Summary)
    (rows : List SalesRecord) :
    runRows run (runAnalyticsDb run today db rows) =
      generateBasicAnalytics run today (keptOf rows) ∧
    (∃ s ∈ generateBasicAnalytics run today (keptOf rows),
      s.region = "ALL" ∧ s.product = "ALL" ∧
      s.total_revenue =
        (if (keptOf rows).isEmpty then 0
         else sumRev ((keptOf rows).map (fun p => p.2.revenue))) ∧
      s.total_orders = (if (keptOf rows).isEmpty then 0 else (keptOf rows).length)) ∧
    (∀ reg ∈ validRegions, ∃ s ∈ generateBasicAnalytics run today (keptOf rows),
      s.region = reg ∧ s.product = "ALL" ∧
      ((keptOf rows).filter (fun p => p.2.region == some reg) = [] →
        s.total_revenue = 0 ∧ s.total_orders = 0)) ∧
    (∀ prod ∈ referenceProducts, ∃ s ∈ generateBasicAnalytics run today (keptOf rows),
      s.region = "ALL" ∧ s.product = prod ∧
      ((keptOf rows).filter (fun p => strContains p.2.product (firstWord prod)) = [] →
        s.total_revenue = 0 ∧ s.total_orders = 0)) ∧
    (∀ d ∈ (transformCleanData run (keptOf rows)).filterMap (fun t => t.order_date),
      ∃ s ∈ generateAnalyticsSummaries run today (transformCleanData run (keptOf rows)),
        s.region = "ALL" ∧ s.product = "ALL" ∧ s.calculation_date = d) ∧
    (∀ s ∈ runRows run (runAnalyticsDb run today db rows), s.calculation_date = today) := by
  have h1 : runRows run (runAnalyticsDb run today db rows) =
      generateBasicAnalytics run today (keptOf rows) :=
    runRows_replaceRun _ run _ (genBasicAnalytics_run_id run today (keptOf rows))
  refine ⟨h1, ?_, ?_, ?_, ?_, ?_⟩
  · exact ⟨_, List.mem_cons_self _ _, rfl, rfl, rfl, rfl⟩
  · intro reg hreg
    refine ⟨_, List.mem_cons_of_mem _ (List.mem_append_left _
      (List.mem_map_of_mem _ hreg)), rfl, rfl, fun hfil => ⟨?_, ?_⟩⟩
    · show (if (keptOf rows).isEmpty = true then 0
          else sumRev (List.map (fun p => p.2.revenue)
            (List.filter (fun p => p.2.region == some reg) (keptOf rows)))) = 0
      rw [hfil]
      split <;> simp [sumRev]
    · show (if (keptOf rows).isEmpty = true then 0
          else (List.filter (fun p => p.2.region == some reg) (keptOf rows)).length) = 0
      rw [hfil]
      split <;> simp
  · intro prod hprod
    refine ⟨_, List.mem_cons_of_mem _ (List.mem_append_right _
      (List.mem_map_of_mem _ hprod)), rfl, rfl, fun hfil => ⟨?_, ?_⟩⟩
    · show (if (keptOf rows).isEmpty = true then 0
          else sumRev (List.map (fun p => p.2.revenue)
            (List.filter (fun p => strContains p.2.product (firstWord prod))
              (keptOf rows)))) = 0
      rw [hfil]
      split <;> simp [sumRev]
    · show (if (keptOf rows).isEmpty = true then 0
          else (List.filter (fun p => strContains p.2.product (firstWord prod))
            (keptOf rows)).length) = 0
      rw [hfil]
      split <;> simp
  · intro d hd
    have hdk : d ∈ distinctKeys ((transformCleanData run (keptOf rows)).filterMap
        (fun t => t.order_date)) := (distinctKeys_mem _ d).mpr hd
    exact ⟨_, List.mem_cons_of_mem _ (List.mem_append_right _
      (List.mem_map_of_mem _ hdk)), rfl, rfl, rfl⟩
  · intro s hs
    rw [h1] at hs
    exact genBasicAnalytics_calc_date run today (keptOf rows) s hs

/-- Claim C4 witness: a batch holding only a North record still yields a
zero-filled South row in the final summary set. -/
theorem claim_C4_witness :
    ∃ s ∈ runRows "r4" (runAnalyticsDb "r4" "2024-06-01" [] [recA1]),
      s.region = "South" ∧ s.product = "ALL" ∧ s.total_revenue = 0 ∧ s.total_orders = 0 := by
  have h := claim_C4_aggregation_rows "r4" "2024-06-01" [] [recA1]
  obtain ⟨s, hmem, hr, hp2, himp⟩ := h.2.2.1 "South" (by decide)
  obtain ⟨hrev, hord⟩ := himp (by decide)
  exact ⟨s, by rw [h.1]; exact hmem, hr, hp2, hrev, hord⟩

/-- Claim C5, counterexample.  A batch of two valid records sharing one
identifier: the second is duplicate-dropped, yet the exception step of
the orchestrator, which receives only the rule-rejected frame, produces
no ExceptionRecord at all. -/
theorem claim_C5_counterexample :
    droppedOf [recA1, recA2] = [(1, recA2)] ∧
    pipelineExceptions "r1" [recA1, recA2] = [] := by decide

/-- Claim C5, amended.  Exactly the rule-rejected records are passed to
the exception categorizer, one ExceptionRecord each; duplicate-dropped
records never reach it (no ExceptionRecord carries their index) and are
only flagged with a DUPLICATE_ORDER_ID entry in the validation log. -/
theorem claim_C5_exceptions (run : String) (rows : List SalesRecord) :
    pipelineExceptions run rows =
      (invalidOf rows).map (mkExceptionRecord run "VALIDATION") ∧
    (∀ p ∈ invalidOf rows,
      mkExceptionRecord run "VALIDATION" p ∈ pipelineExceptions run rows) ∧
    (∀ p ∈ droppedOf rows,
      (∀ e ∈ pipelineExceptions run rows, e.original_record_id ≠ p.1) ∧
      ∃ e ∈ (checkDuplicates (validOf rows)).2,
        e.record_id = p.1 ∧ e.control_type = "DUPLICATE_ORDER_ID") := by
  refine ⟨rfl, fun p hp => List.mem_map_of_mem _ hp, fun p hp => ⟨?_, ?_⟩⟩
  · intro e he
    rcases List.mem_map.mp he with ⟨q, hq, rfl⟩
    have hpv : p ∈ validOf rows := splitDups_dropped_sub (validOf rows) [] p hp
    have hne := vaux_disjoint rows 0 p q hpv hq
    simpa [mkExceptionRecord] using fun hc => hne hc.symm
  · have hpv : p ∈ validOf rows := splitDups_dropped_sub (validOf rows) [] p hp
    rcases splitDups_dropped_partner (validOf rows) [] p hp with hin | ⟨q, hqk, hkey⟩
    · simp at hin
    · have hqv : q ∈ validOf rows := splitDups_kept_sub (validOf rows) [] q hqk
      have hnodup : ((validOf rows).map Prod.fst).Nodup := vaux_nodup_valid rows 0
      have hqp : q ≠ p := fun hc =>
        splitDups_kept_dropped_disjoint (validOf rows) hnodup [] p (hc ▸ hqk) hp
      have hcnt : 2 ≤ countKey p.2.order_id (validOf rows) := by
        unfold countKey
        apply two_le_length_of_mem (a := p) (b := q)
        · exact List.mem_filter.mpr ⟨hpv, by simp⟩
        · exact List.mem_filter.mpr ⟨hqv, by simp [hkey]⟩
        · exact fun hc => hqp hc.symm
      refine ⟨failEntry p.1 "DUPLICATE_CHECK" "DUPLICATE_ORDER_ID" "Duplicate order ID",
        ?_, rfl, rfl⟩
      unfold checkDuplicates dupLogEntries
      apply List.mem_map_of_mem
      exact List.mem_filter.mpr ⟨hpv, by simp [hcnt]⟩

/-- Claim C5 witness: in a batch with one duplicate pair and one
rule-rejected record, the dropped duplicate has a DUPLICATE_ORDER_ID log
entry and no ExceptionRecord carries its index. -/
theorem claim_C5_witness :
    (1, recA2) ∈ droppedOf [recA1, recA2, recEmptyId] ∧
    (∀ e ∈ pipelineExceptions "r1" [recA1, recA2, recEmptyId], e.original_record_id ≠ 1) ∧
    ∃ e ∈ (checkDuplicates (validOf [recA1, recA2, recEmptyId])).2,
      e.record_id = 1 ∧ e.control_type = "DUPLICATE_ORDER_ID" := by
  have h := (claim_C5_exceptions "r1" [recA1, recA2, recEmptyId]).2.2 (1, recA2) (by decide)
  exact ⟨by decide, h.1, h.2⟩

theorem mem_if_singleton {t s : String} {b : Bool} :
    t ∈ (if b then [s] else []) ↔ b = true ∧ t = s := by
  cases b <;> simp

theorem if_singleton_eq_nil {s : String} {b : Bool} :
    (if b then [s] else []) = [] ↔ b = false := by
  cases b <;> simp

theorem mem_dateTypes_of_ne (t : String) (d : Option String)
    (h1 : t ≠ "MISSING_DATE") (h2 : t ≠ "INVALID_FORMAT") (h3 : t ≠ "PARSE_ERROR") :
    t ∉ dateTypes d := by
  cases d with
  | none => simp [dateTypes, h1]
  | some s =>
    by_cases hs : s == "invalid_date"
    · simp [dateTypes, hs, h2]
    · cases hp : parseDate s <;> simp [dateTypes, hs, hp, h3]

theorem mem_dateTypes_iff (d : Option String) :
    ("MISSING_DATE" ∈ dateTypes d ∨ "INVALID_FORMAT" ∈ dateTypes d ∨
      "PARSE_ERROR" ∈ dateTypes d) ↔ dateOk d = false := by
  cases d with
  | none => simp [dateTypes, dateOk]
  | some s =>
    by_cases hs : s == "invalid_date"
    · simp [dateTypes, dateOk, hs]
    · cases hp : parseDate s <;> simp [dateTypes, dateOk, hs, hp]

set_option maxHeartbeats 1000000 in
/-- Claim C6.  Rule evaluation is exhaustive and not short-circuited:
for every record, each of the six rule families contributes its
violation to the log independently of the others (so a record violating
both the revenue and the region rule reports both), and the record is
accepted exactly when the violation list is empty. -/
theorem claim_C6_exhaustive_rules (idx : Nat) (r : SalesRecord) :
    ((validateRecord idx r).1 = true ↔ failedTypesOf idx r = []) ∧
    ("MISSING_ORDER_ID" ∈ failedTypesOf idx r ↔ isMissingStr r.order_id = true) ∧
    ("MISSING_REGION" ∈ failedTypesOf idx r ↔ isMissingStr r.region = true) ∧
    (("MISSING_DATE" ∈ failedTypesOf idx r ∨ "INVALID_FORMAT" ∈ failedTypesOf idx r ∨
      "PARSE_ERROR" ∈ failedTypesOf idx r) ↔ dateOk r.order_date = false) ∧
    ("NEGATIVE_REVENUE" ∈ failedTypesOf idx r ↔ negRevenue r = true) ∧
    ("INVALID_QUANTITY" ∈ failedTypesOf idx r ↔ badQuantity r = true) ∧
    ("INVALID_REGION" ∈ failedTypesOf idx r ↔ badRegion r = true) := by
  have htypes := failedTypesOf_eq idx r
  rw [failEntriesOf_types] at htypes
  refine ⟨?_, ?_, ?_, ?_, ?_, ?_, ?_⟩
  · rw [valid_flag_iff, htypes]
    simp [List.append_eq_nil, if_singleton_eq_nil, dateTypes_eq_nil]
  · rw [htypes]
    have hd := mem_dateTypes_of_ne "MISSING_ORDER_ID" r.order_date
      (by decide) (by decide) (by decide)
    simp [List.mem_append, mem_if_singleton, hd]
  · rw [htypes]
    have hd := mem_dateTypes_of_ne "MISSING_REGION" r.order_date
      (by decide) (by decide) (by decide)
    simp [List.mem_append, mem_if_singleton, hd]
  · cases hd : dateOk r.order_date with
    | true =>
      have hnil : dateTypes r.order_date = [] := (dateTypes_eq_nil _).mpr hd
      rw [htypes, hnil]
      simp [mem_if_singleton]
    | false =>
      rw [htypes]
      have hdm := (mem_dateTypes_iff r.order_date).mpr hd
      constructor
      · intro _
        rfl
      · intro _
        rcases hdm with h | h | h
        · exact Or.inl (List.mem_append_left _ (List.mem_append_left _
            (List.mem_append_left _ (List.mem_append_right _ h))))
        · exact Or.inr (Or.inl (List.mem_append_left _ (List.mem_append_left _
            (List.mem_append_left _ (List.mem_append_right _ h)))))
        · exact Or.inr (Or.inr (List.mem_append_left _ (List.mem_append_left _
            (List.mem_append_left _ (List.mem_append_right _ h)))))
  · rw [htypes]
    have hd := mem_dateTypes_of_ne "NEGATIVE_REVENUE" r.order_date
      (by decide) (by decide) (by decide)
    simp [List.mem_append, mem_if_singleton, hd]
  · rw [htypes]
    have hd := mem_dateTypes_of_ne "INVALID_QUANTITY" r.order_date
      (by decide) (by decide) (by decide)
    simp [List.mem_append, mem_if_singleton, hd]
  · rw [htypes]
    have hd := mem_dateTypes_of_ne "INVALID_REGION" r.order_date
      (by decide) (by decide) (by decide)
    simp [List.mem_append, mem_if_singleton, hd]

/-- Negative revenue together with a region outside the reference set. -/
def recNegRevBadRegion : SalesRecord :=
  { order_id := some "Z", order_date := some "2024-01-01", region := some "Mars",
    product := "Paneer 200g", quantity := some 1, revenue := some (-10) }

/-- Claim C6 witness: a record violating both the negative-revenue rule
and the invalid-region rule reports both violations. -/
theorem claim_C6_witness :
    "NEGATIVE_REVENUE" ∈ failedTypesOf 0 recNegRevBadRegion ∧
    "INVALID_REGION" ∈ failedTypesOf 0 recNegRevBadRegion :=
  ⟨(claim_C6_exhaustive_rules 0 recNegRevBadRegion).2.2.2.2.1.mpr (by decide),
   (claim_C6_exhaustive_rules 0 recNegRevBadRegion).2.2.2.2.2.2.mpr (by decide)⟩

/-- Claim C7.  The duplicate pass is deterministic first-wins: the frame
it returns equals the keep-first-in-batch-order specification; a record
is flagged with the duplicate rule exactly when its identifier occurs
more than once in the accepted frame (so all occurrences of a duplicated
key, the kept first one included, are flagged); and on identifiers
A, B, A, A in that order the kept set is the first A and B while the
second and third A are dropped. -/
theorem claim_C7_keep_first (rows : List SalesRecord) :
    keptOf rows = keepFirstSpec (validOf rows) ∧
    (∀ p ∈ validOf rows,
      (failEntry p.1 "DUPLICATE_CHECK" "DUPLICATE_ORDER_ID" "Duplicate order ID" ∈
        (checkDuplicates (validOf rows)).2 ↔
       2 ≤ countKey p.2.order_id (validOf rows))) ∧
    keptOf [recA1, recB, recA2, recA3] = [(0, recA1), (1, recB)] ∧
    droppedOf [recA1, recB, recA2, recA3] = [(2, recA2), (3, recA3)] ∧
    (checkDuplicates (validOf [recA1, recB, recA2, recA3])).2 =
      [failEntry 0 "DUPLICATE_CHECK" "DUPLICATE_ORDER_ID" "Duplicate order ID",
       failEntry 2 "DUPLICATE_CHECK" "DUPLICATE_ORDER_ID" "Duplicate order ID",
       failEntry 3 "DUPLICATE_CHECK" "DUPLICATE_ORDER_ID" "Duplicate order ID"] := by
  refine ⟨splitDups_eq_keepFirstSpec (validOf rows), ?_, by decide, by decide, by decide⟩
  intro p hp
  constructor
  · intro he
    rcases List.mem_map.mp he with ⟨q, hqf, heq⟩
    have hq1 : q.1 = p.1 := by
      simpa [failEntry] using congrArg LogEntry.record_id heq
    rcases List.mem_filter.mp hqf with ⟨hql, hqc⟩
    have hnodup : ((validOf rows).map Prod.fst).Nodup := vaux_nodup_valid rows 0
    have hqp : q = p := List.inj_on_of_nodup_map hnodup hql hp hq1
    subst hqp
    simpa using hqc
  · intro hcnt
    apply List.mem_map_of_mem
    exact List.mem_filter.mpr ⟨hp, by simp [hcnt]⟩

/-- Claim C7 witness: in the A, B, A, A batch the kept first occurrence
of A is itself flagged with the duplicate rule. -/
theorem claim_C7_witness :
    failEntry 0 "DUPLICATE_CHECK" "DUPLICATE_ORDER_ID" "Duplicate order ID" ∈
      (checkDuplicates (validOf [recA1, recB, recA2, recA3])).2 := by
  have h := (claim_C7_keep_first [recA1, recB, recA2, recA3]).2.1 (0, recA1) (by decide)
  exact h.mpr (by decide)

/-- Claim C8.  The orchestrator never lets a failure escape: for every
input shape the run returns a result whose status is SUCCESS with no
error, or FAILED with an error message; and when even the best-effort
fallback aggregation fails (an unreadable source), the failure is
swallowed and the summary table is simply left untouched. -/
theorem claim_C8_orchestrator (run today : String) (db : List Summary)
    (input : PipelineInput) :
    (((runPipeline run today db input).1.status = "SUCCESS" ∧
      (runPipeline run today db input).1.error = none) ∨
     ((runPipeline run today db input).1.status = "FAILED" ∧
      ∃ msg, (runPipeline run today db input).1.error = some msg)) ∧
    (runPipeline run today db PipelineInput.missingFile).2 =
      replaceRun db run (generateBasicAnalytics run today []) ∧
    (runPipeline run today db PipelineInput.unreadable).2 = db := by
  refine ⟨?_, rfl, rfl⟩
  cases input with
  | missingFile => exact Or.inr ⟨rfl, _, rfl⟩
  | unreadable => exact Or.inr ⟨rfl, _, rfl⟩
  | batch cols rows =>
    by_cases h : validateSchema cols = true
    · left
      simp [runPipeline, readSource, h]
    · right
      simp [runPipeline, readSource, h]

/-- Claim C9.  Both aggregation writes use delete-before-insert on the
run identifier, so re-running either for the same run with the same
input leaves the summary table exactly as after one run: no duplicated
rows, no drift. -/
theorem claim_C9_idempotent_replace (db : List Summary) (run today : String)
    (clean : List (Nat × SalesRecord)) (df : List TransformedRecord) :
    replaceRun (replaceRun db run (generateBasicAnalytics run today clean)) run
        (generateBasicAnalytics run today clean) =
      replaceRun db run (generateBasicAnalytics run today clean) ∧
    replaceRun (replaceRun db run (generateAnalyticsSummaries run today df)) run
        (generateAnalyticsSummaries run today df) =
      replaceRun db run (generateAnalyticsSummaries run today df) :=
  ⟨replaceRun_idem db run _ (genBasicAnalytics_run_id run today clean),
   replaceRun_idem db run _ (genSummaries_run_id run today df)⟩

/-- Claim C10.  The record-validation pass writes one PASSED entry per
accepted record and one FAILED entry per violated rule, and nothing
else: its log size is the accepted count plus the total violation count
of the batch. -/
theorem claim_C10_log_count (rows : List SalesRecord) :
    ((valLogsOf rows).filter (fun e => e.status == "PASSED")).length =
      (validOf rows).length ∧
    ((valLogsOf rows).filter (fun e => e.status == "FAILED")).length =
      (rows.map ruleViolationCount).sum ∧
    (valLogsOf rows).length =
      (validOf rows).length + (rows.map ruleViolationCount).sum :=
  ⟨vaux_log_passed rows 0, vaux_log_failed rows 0, vaux_log_total rows 0⟩
